import Mathlib

/-!
Shallow embedding of the SolanaBurner core (src/src/utils.rs,
src/src/components/wallet.rs, src/src/components/burn_form.rs).

Conventions of the embedding:
* Rust string byte slicing (`&s[a..b]`) panics on an out-of-range index or a
  non-UTF-8-boundary index; fallible operations are embedded as `Option`,
  with `none` standing for a panic.
* `str::parse::<f64>` is embedded by `parseF64` below, following the grammar
  of Rust's `FromStr for f64` (optional sign; `inf`, `infinity`, `nan`
  case-insensitively; or a decimal significand with optional exponent).
* The floating-point comparison `amount <= 0.0` is embedded by `f64LeZero`:
  under round-to-nearest (ties to even), the double nearest to an exact
  decimal value q satisfies `value <= 0.0` exactly when q ≤ 2 ^ (-1075)
  (the midpoint between 0 and the smallest positive subnormal rounds to the
  even side, +0.0; every larger q rounds to a positive double or +inf).
* The async blocks spawned by the components are embedded as functions from
  an environment record (describing the injected `window.solana` object) to
  the message they send back, `none` when they finish without sending one.
-/

set_option maxRecDepth 40000
set_option exponentiation.threshold 2000

/-- Number of bytes of the UTF-8 encoding of a character
(Rust `str` indices count these bytes). -/
def charBytes (c : Char) : Nat :=
  if c.toNat < 0x80 then 1
  else if c.toNat < 0x800 then 2
  else if c.toNat < 0x10000 then 3
  else 4

/-- Byte length of a string, as Rust's `str::len`. -/
def utf8Len (l : List Char) : Nat :=
  (l.map charBytes).sum

/-- Drop exactly `n` leading bytes from a character list; `none` when `n`
overshoots the list or falls inside a character (not a char boundary),
where Rust slicing would panic. -/
def dropBytes : List Char → Nat → Option (List Char)
  | l, 0 => some l
  | [], _ + 1 => none
  | c :: cs, n + 1 =>
    if charBytes c ≤ n + 1 then dropBytes cs (n + 1 - charBytes c) else none

/-- Take exactly `n` leading bytes from a character list; `none` when `n`
overshoots the list or falls inside a character. -/
def takeBytes : List Char → Nat → Option (List Char)
  | _, 0 => some []
  | [], _ + 1 => none
  | c :: cs, n + 1 =>
    if charBytes c ≤ n + 1 then
      (takeBytes cs (n + 1 - charBytes c)).map (fun t => c :: t)
    else none

/-- Rust `&s[a..b]`: byte-indexed slice; `none` models the panic on an
invalid range (start past end, index out of range, or inside a character). -/
def rustSliceList (l : List Char) (a b : Nat) : Option (List Char) :=
  if a ≤ b then
    match dropBytes l a with
    | some l2 => takeBytes l2 (b - a)
    | none => none
  else none

/-- utils.rs, `format_transaction_signature`:
`format!("{}...{}", &signature[0..6], &signature[signature.len()-6..])`.
`none` models the panic (slice out of range) on inputs of fewer than
6 bytes.  (When `signature.len() < 6`, `&signature[0..6]` is already out of
range, so the truncating Nat subtraction in the second index is harmless:
the whole expression is `none` either way, just as every evaluation order
of the two panicking slices panics.) -/
def format_transaction_signature (signature : String) : Option String := do
  let first ← rustSliceList signature.data 0 6
  let last ← rustSliceList signature.data (utf8Len signature.data - 6) (utf8Len signature.data)
  pure (String.mk (first ++ "...".data ++ last))

/-- All characters are ASCII, i.e. one UTF-8 byte each. -/
def asciiStr (s : String) : Bool :=
  s.data.all (fun c => charBytes c == 1)

/-! ### `str::parse::<f64>` -/

/-- An exact decimal value, kept as an unreduced fraction (denominator a
positive power of ten) so that the kernel can compute with it. -/
structure Frac where
  num : ℤ
  den : ℕ
deriving DecidableEq

/-- The rational value of a fraction. -/
def Frac.toRat (f : Frac) : ℚ :=
  (f.num : ℚ) / (f.den : ℚ)

/-- Value classes a Rust `f64` parse can produce (the exact decimal value is
kept as a fraction; rounding to a double only matters for the sign test and
is folded into `f64LeZero`). -/
inductive F64Val where
  | nan : F64Val
  | inf : F64Val
  | neginf : F64Val
  | finite (f : Frac) : F64Val
deriving DecidableEq

/-- Optional leading sign: returns (isNegative, rest). -/
def parseSign : List Char → Bool × List Char
  | '+' :: r => (false, r)
  | '-' :: r => (true, r)
  | l => (false, l)

/-- Numeric value of a digit string (most significant first). -/
def digitsToNat (l : List Char) : Nat :=
  l.foldl (fun a c => a * 10 + (c.toNat - 48)) 0

/-- Case-insensitive comparison against a keyword, as Rust's f64 parser
does for `inf` / `infinity` / `nan`. -/
def lowerEq (l : List Char) (s : String) : Bool :=
  (l.map Char.toLower) == s.data

/-- Decimal significand: `Digits '.'? Digits?` or `'.' Digits`;
returns its exact value `ip + fp / 10 ^ |fp|` (as the unreduced fraction
`(ip * 10 ^ |fp| + fp) / 10 ^ |fp|`) and the unconsumed rest. -/
def parseMantissa (l : List Char) : Option (Frac × List Char) :=
  let ip := l.takeWhile Char.isDigit
  let r := l.dropWhile Char.isDigit
  match r with
  | '.' :: r2 =>
    let fp := r2.takeWhile Char.isDigit
    let r3 := r2.dropWhile Char.isDigit
    if ip.isEmpty && fp.isEmpty then none
    else
      some (⟨((digitsToNat ip * 10 ^ fp.length + digitsToNat fp : ℕ) : ℤ),
             10 ^ fp.length⟩, r3)
  | _ => if ip.isEmpty then none else some (⟨(digitsToNat ip : ℤ), 1⟩, r)

/-- Optional exponent part `('e'|'E') sign? Digits`, which must consume the
whole rest of the input; returns the exponent. -/
def parseExpTail (l : List Char) : Option ℤ :=
  match l with
  | [] => some 0
  | c :: r =>
    if c == 'e' || c == 'E' then
      let (neg, r2) := parseSign r
      let ds := r2.takeWhile Char.isDigit
      let r3 := r2.dropWhile Char.isDigit
      if ds.isEmpty || !r3.isEmpty then none
      else some (if neg then -(digitsToNat ds : ℤ) else (digitsToNat ds : ℤ))
    else none

/-- Apply a decimal exponent to a significand. -/
def applyExp (e : ℤ) (f : Frac) : Frac :=
  if e < 0 then ⟨f.num, f.den * 10 ^ e.natAbs⟩
  else ⟨f.num * ((10 ^ e.natAbs : ℕ) : ℤ), f.den⟩

/-- Negate a significand (for a leading minus sign). -/
def Frac.neg (f : Frac) : Frac :=
  ⟨-f.num, f.den⟩

/-- Embeds `self.amount.parse::<f64>()` (grammar of Rust's `FromStr for
f64`): optional sign, then `inf` / `infinity` / `nan` case-insensitively,
or a decimal significand with an optional exponent; nothing else, and no
surrounding whitespace. -/
def parseF64 (s : String) : Option F64Val :=
  let (neg, r) := parseSign s.data
  if lowerEq r "inf" || lowerEq r "infinity" then
    some (if neg then F64Val.neginf else F64Val.inf)
  else if lowerEq r "nan" then
    some F64Val.nan
  else
    match parseMantissa r with
    | none => none
    | some (f, rest) =>
      match parseExpTail rest with
      | none => none
      | some e => some (F64Val.finite (applyExp e (if neg then f.neg else f)))

/-- Embeds the Rust comparison `amount <= 0.0` on the parsed double:
`NaN <= 0.0` and `inf <= 0.0` are false, `-inf <= 0.0` is true, and an
exact decimal value num/den (den a positive power of ten) rounds (nearest,
ties to even) to a double ≤ +0.0 exactly when num/den ≤ 2 ^ (-1075), i.e.
num * 2 ^ 1075 ≤ den. -/
def f64LeZero : F64Val → Bool
  | F64Val.nan => false
  | F64Val.inf => false
  | F64Val.neginf => true
  | F64Val.finite f => decide (f.num * ((2 ^ 1075 : ℕ) : ℤ) ≤ (f.den : ℤ))

/-! ### burn_form.rs : `BurnForm` component -/

/-- The `BurnForm` component state (burn_form.rs). -/
structure BurnForm where
  amount : String
  status : Option String
  loading : Bool
deriving DecidableEq

/-- Messages of the `BurnForm` component. -/
inductive BurnMsg where
  | UpdateAmount (amount : String) : BurnMsg
  | Burn : BurnMsg
  | TransactionComplete (signature : String) : BurnMsg
  | Error (error : String) : BurnMsg
deriving DecidableEq

/-- Environment seen by the async block spawned on `Msg::Burn`: the shape of
the injected `window.solana` object and the outcome of calling its
`burnTokens` function. -/
structure BurnEnv where
  solanaPresent : Bool
  burnTokensIsFun : Bool
  burnOk : Bool
deriving DecidableEq

/-- `js_sys::Reflect::get(&window, &JsValue::from_str("solana"))`: in
ECMAScript, `Reflect.get` only throws when its target is not an object;
`window` is an object, so the call always returns `Ok`, with the value
`undefined` when no wallet is injected.  The `Bool` payload records whether
the value is an object (`true`) or `undefined` (`false`). -/
def reflectGetWindowSolana (solanaPresent : Bool) : Except Unit Bool :=
  Except.ok solanaPresent

/-- Embeds the async block spawned by `BurnForm::update` on `Msg::Burn`:
the message it sends back to the component, `none` when it finishes
without sending one (`Reflect::get` on the `undefined` wallet errors, or
`burnTokens` is not a function). -/
def burnTask (env : BurnEnv) (amount_str : String) : Option BurnMsg :=
  match reflectGetWindowSolana env.solanaPresent with
  | Except.ok solanaDefined =>
    if solanaDefined then
      if env.burnTokensIsFun then
        if env.burnOk then
          some (BurnMsg.TransactionComplete
            ("Successfully burned " ++ amount_str ++ " tokens"))
        else
          some (BurnMsg.Error "Failed to burn tokens")
      else none
    else none
  | Except.error _ => none

/-- Embeds `BurnForm::update`.  Returns the new state, the `bool` the Rust
function returns (re-render), and the list of amounts handed to spawned
adapter burn tasks (`wasm_bindgen_futures::spawn_local`). -/
def burnUpdate (s : BurnForm) (msg : BurnMsg) : BurnForm × Bool × List String :=
  match msg with
  | BurnMsg.UpdateAmount amount => ({ s with amount := amount }, true, [])
  | BurnMsg.Burn =>
    match parseF64 s.amount with
    | some amount =>
      if f64LeZero amount then
        ({ s with status := some "Amount must be greater than 0" }, true, [])
      else
        ({ s with loading := true }, true, [s.amount])
    | none => ({ s with status := some "Invalid amount" }, true, [])
  | BurnMsg.TransactionComplete signature =>
    ({ amount := "", status := some signature, loading := false }, true, [])
  | BurnMsg.Error error =>
    ({ s with status := some error, loading := false }, true, [])

/-- The `disabled={self.loading}` attribute of the amount input in
`BurnForm::view`. -/
def burnViewAmountDisabled (s : BurnForm) : Bool :=
  s.loading

/-- The `disabled={self.loading}` attribute of the submit button in
`BurnForm::view`. -/
def burnViewButtonDisabled (s : BurnForm) : Bool :=
  s.loading

/-! ### wallet.rs : `WalletConnect` component -/

/-- The `WalletConnect` component state (wallet.rs); the `on_connect`
callback prop is modelled by the notification list `walletUpdate` returns. -/
structure WalletConnect where
  connected : Bool
  pub_key : Option String
deriving DecidableEq

/-- Messages of the `WalletConnect` component. -/
inductive WalletMsg where
  | Connect : WalletMsg
  | Connected (status : Bool) (key : Option String) : WalletMsg
  | Error (error : String) : WalletMsg
deriving DecidableEq

/-- Environment seen by the async block spawned on `Msg::Connect`: the shape
of the injected `window.solana` object, the outcome of calling its
`connect` function, and its `publicKey` property when it is a string. -/
structure ConnectEnv where
  solanaPresent : Bool
  connectIsFun : Bool
  connectOk : Bool
  publicKey : Option String
deriving DecidableEq

/-- Embeds the async block spawned by `WalletConnect::update` on
`Msg::Connect`: the message it sends back, `none` when it finishes without
sending one.  `Reflect::get(&window, "solana")` always returns `Ok`
(see `reflectGetWindowSolana`), so the `else` arm sending
`Msg::Error("Phantom wallet not found")` can never run; when no wallet is
injected the inner `Reflect::get(&phantom, "connect")` on `undefined`
errors and the block falls through silently. -/
def connectTask (env : ConnectEnv) : Option WalletMsg :=
  match reflectGetWindowSolana env.solanaPresent with
  | Except.ok phantomDefined =>
    if phantomDefined then
      if env.connectIsFun then
        if env.connectOk then
          some (WalletMsg.Connected true env.publicKey)
        else none
      else none
    else none
  | Except.error _ => some (WalletMsg.Error "Phantom wallet not found")

/-- Embeds `WalletConnect::update`.  Returns the new state, the `bool` the
Rust function returns (re-render), the list of `on_connect.emit` payloads,
and the number of adapter connect tasks spawned. -/
def walletUpdate (s : WalletConnect) (msg : WalletMsg) :
    WalletConnect × Bool × List Bool × Nat :=
  match msg with
  | WalletMsg.Connect => (s, false, [], 1)
  | WalletMsg.Connected status key =>
    ({ connected := status, pub_key := key }, true, [status], 0)
  | WalletMsg.Error _ =>
    ({ s with connected := false }, true, [], 0)

/-- wallet.rs view, the inlined address formatting
`format!("Address: {}...{}", &key[..6], &key[key.len()-6..])`;
`none` models the panic on keys of fewer than 6 bytes (as in
`format_transaction_signature`, the truncating Nat subtraction is then
masked by the already-failing first slice). -/
def addressDisplay (key : String) : Option String := do
  let first ← rustSliceList key.data 0 6
  let last ← rustSliceList key.data (utf8Len key.data - 6) (utf8Len key.data)
  pure (String.mk ("Address: ".data ++ first ++ "...".data ++ last))

/-- Embeds `WalletConnect::view` as the text it renders; `none` models a
panic while rendering. -/
def walletView (s : WalletConnect) : Option String :=
  if !s.connected then
    some "Connect Phantom"
  else
    match s.pub_key with
    | some key => (addressDisplay key).map (fun a => "Wallet Connected" ++ a)
    | none => some "Wallet Connected"

/-- States of the `WalletConnect` component reachable from `create` under
user `Connect` intents and completions of spawned connect tasks (for any
environments the injected wallet object may present). -/
inductive WReachable : WalletConnect → Prop
  | init : WReachable { connected := false, pub_key := none }
  | connect (s : WalletConnect) : WReachable s →
      WReachable (walletUpdate s WalletMsg.Connect).1
  | task (s : WalletConnect) (env : ConnectEnv) (m : WalletMsg) :
      WReachable s → connectTask env = some m →
      WReachable (walletUpdate s m).1

/-! ### Helper lemmas about byte slicing of ASCII strings -/

lemma dropBytes_ascii :
    ∀ (l : List Char), (∀ c ∈ l, charBytes c = 1) → ∀ n : Nat,
      dropBytes l n = if n ≤ l.length then some (l.drop n) else none := by
  intro l
  induction l with
  | nil =>
    intro _ n
    cases n <;> simp [dropBytes]
  | cons c cs ih =>
    intro h n
    have hc : charBytes c = 1 := h c (List.mem_cons_self c cs)
    have hcs : ∀ x ∈ cs, charBytes x = 1 := fun x hx => h x (List.mem_cons_of_mem c hx)
    cases n with
    | zero => simp [dropBytes]
    | succ k =>
      rw [dropBytes, hc]
      simp only [Nat.le_add_left 1 k, if_pos, Nat.add_sub_cancel]
      rw [ih hcs k]
      by_cases hk : k ≤ cs.length
      · rw [if_pos hk, if_pos (by simpa using Nat.succ_le_succ hk)]
        simp
      · rw [if_neg hk, if_neg (by simpa using fun hh => hk (Nat.le_of_succ_le_succ hh))]

lemma takeBytes_ascii :
    ∀ (l : List Char), (∀ c ∈ l, charBytes c = 1) → ∀ n : Nat,
      takeBytes l n = if n ≤ l.length then some (l.take n) else none := by
  intro l
  induction l with
  | nil =>
    intro _ n
    cases n <;> simp [takeBytes]
  | cons c cs ih =>
    intro h n
    have hc : charBytes c = 1 := h c (List.mem_cons_self c cs)
    have hcs : ∀ x ∈ cs, charBytes x = 1 := fun x hx => h x (List.mem_cons_of_mem c hx)
    cases n with
    | zero => simp [takeBytes]
    | succ k =>
      rw [takeBytes, hc]
      simp only [Nat.le_add_left 1 k, if_pos, Nat.add_sub_cancel]
      rw [ih hcs k]
      by_cases hk : k ≤ cs.length
      · rw [if_pos hk, if_pos (by simpa using Nat.succ_le_succ hk)]
        simp
      · rw [if_neg hk, if_neg (by simpa using fun hh => hk (Nat.le_of_succ_le_succ hh))]
        rfl

lemma utf8Len_ascii :
    ∀ (l : List Char), (∀ c ∈ l, charBytes c = 1) → utf8Len l = l.length := by
  intro l
  induction l with
  | nil => intro _; rfl
  | cons c cs ih =>
    intro h
    have hc : charBytes c = 1 := h c (List.mem_cons_self c cs)
    have hcs : ∀ x ∈ cs, charBytes x = 1 := fun x hx => h x (List.mem_cons_of_mem c hx)
    have := ih hcs
    simp [utf8Len, hc] at this ⊢
    omega

lemma asciiStr_iff (s : String) :
    asciiStr s = true ↔ ∀ c ∈ s.data, charBytes c = 1 := by
  simp [asciiStr, List.all_eq_true]

lemma rustSliceList_ascii (l : List Char) (h : ∀ c ∈ l, charBytes c = 1) (a b : Nat) :
    rustSliceList l a b =
      if a ≤ b ∧ b ≤ l.length then some ((l.drop a).take (b - a)) else none := by
  unfold rustSliceList
  rw [dropBytes_ascii l h a]
  by_cases hab : a ≤ b
  · by_cases hal : a ≤ l.length
    · rw [if_pos hab, if_pos hal]
      show takeBytes (l.drop a) (b - a) =
        if a ≤ b ∧ b ≤ l.length then some ((l.drop a).take (b - a)) else none
      rw [takeBytes_ascii _ (fun c hc => h c (List.mem_of_mem_drop hc)) (b - a)]
      by_cases hbl : b ≤ l.length
      · rw [if_pos (by simp [List.length_drop]; omega), if_pos ⟨hab, hbl⟩]
      · rw [if_neg (by simp [List.length_drop]; omega),
            if_neg (by exact fun hc => hbl hc.2)]
    · rw [if_pos hab, if_neg hal, if_neg (by omega)]
  · rw [if_neg hab, if_neg (by exact fun hc => hab hc.1)]

lemma format_transaction_signature_ascii (s : String) (h : asciiStr s = true) :
    format_transaction_signature s =
      if 6 ≤ s.length then
        some (String.mk (s.data.take 6 ++ "...".data ++ s.data.drop (s.length - 6)))
      else none := by
  have hl := (asciiStr_iff s).mp h
  have hlen : utf8Len s.data = s.data.length := utf8Len_ascii _ hl
  have hsl : s.length = s.data.length := rfl
  unfold format_transaction_signature
  rw [rustSliceList_ascii _ hl, rustSliceList_ascii _ hl, hlen]
  by_cases h6 : 6 ≤ s.data.length
  · rw [if_pos (by omega), if_pos (by omega), if_pos (by rw [hsl]; exact h6)]
    have h1 : s.data.drop 0 = s.data := List.drop_zero s.data
    have h2 : s.data.length - (s.data.length - 6) = 6 := by omega
    have h3 : ((s.data.drop (s.data.length - 6)).take 6) =
        s.data.drop (s.data.length - 6) := by
      apply List.take_of_length_le
      rw [List.length_drop]
      omega
    simp only [h1, h2, h3, Nat.sub_zero, Option.bind_eq_bind, Option.some_bind, hsl]
    rfl
  · have h6' : ¬6 ≤ s.length := by rw [hsl]; exact h6
    rw [if_neg (by omega : ¬(0 ≤ 6 ∧ 6 ≤ s.data.length)),
        if_pos (by omega :
          s.data.length - 6 ≤ s.data.length ∧ s.data.length ≤ s.data.length),
        if_neg h6']
    rfl

lemma addressDisplay_ascii (key : String) (h : asciiStr key = true) :
    addressDisplay key =
      if 6 ≤ key.length then
        some (String.mk ("Address: ".data ++ key.data.take 6 ++ "...".data ++
          key.data.drop (key.length - 6)))
      else none := by
  have hl := (asciiStr_iff key).mp h
  have hlen : utf8Len key.data = key.data.length := utf8Len_ascii _ hl
  have hsl : key.length = key.data.length := rfl
  unfold addressDisplay
  rw [rustSliceList_ascii _ hl, rustSliceList_ascii _ hl, hlen]
  by_cases h6 : 6 ≤ key.data.length
  · rw [if_pos (by omega), if_pos (by omega), if_pos (by rw [hsl]; exact h6)]
    have h1 : key.data.drop 0 = key.data := List.drop_zero key.data
    have h2 : key.data.length - (key.data.length - 6) = 6 := by omega
    have h3 : ((key.data.drop (key.data.length - 6)).take 6) =
        key.data.drop (key.data.length - 6) := by
      apply List.take_of_length_le
      rw [List.length_drop]
      omega
    simp only [h1, h2, h3, Nat.sub_zero, Option.bind_eq_bind, Option.some_bind, hsl]
    rfl
  · have h6' : ¬6 ≤ key.length := by rw [hsl]; exact h6
    rw [if_neg (by omega : ¬(0 ≤ 6 ∧ 6 ≤ key.data.length)),
        if_pos (by omega :
          key.data.length - 6 ≤ key.data.length ∧ key.data.length ≤ key.data.length),
        if_neg h6']
    rfl

/-- Process a list of messages in order, returning the final state and the
total number of adapter connect tasks spawned along the way. -/
def walletRun (s : WalletConnect) : List WalletMsg → WalletConnect × Nat
  | [] => (s, 0)
  | m :: ms =>
    let r := walletUpdate s m
    let rest := walletRun r.1 ms
    (rest.1, r.2.2.2 + rest.2)

/-! ### Claim theorems -/

/-- Claim C1, counterexample: in the state where a burn call is outstanding
(`loading = true`, submitted amount "5" still in the box), a further `Burn`
message is not a no-op: the update dispatches a second adapter burn call
(the spawned-call list is `["5"]`, not `[]`). -/
theorem burn_resubmit_spawns_second_call :
    burnUpdate { amount := "5", status := none, loading := true } BurnMsg.Burn
      = ({ amount := "5", status := none, loading := true }, true, ["5"]) := by
  decide

/-- Claim C1 (amended): while a burn call is outstanding the view disables
the amount input and the submit button — re-submission is prevented only by
this UI policy; the update function itself has no guard, and a `Burn`
message processed while `loading = true` with a still-valid amount
dispatches another adapter burn call. -/
theorem burn_resubmit_guard_is_ui_only :
    ∀ st : BurnForm, st.loading = true →
      (burnViewAmountDisabled st = true ∧ burnViewButtonDisabled st = true) ∧
      ∀ v, parseF64 st.amount = some v → f64LeZero v = false →
        (burnUpdate st BurnMsg.Burn).2.2 = [st.amount] := by
  intro st h
  refine ⟨⟨h, h⟩, ?_⟩
  intro v hv hle
  simp [burnUpdate, hv, hle]

/-- Witness for `burn_resubmit_guard_is_ui_only` at the concrete state
`{amount := "5", loading := true}`. -/
theorem burn_resubmit_guard_is_ui_only_witness :
    (burnViewAmountDisabled { amount := "5", status := none, loading := true } = true ∧
      burnViewButtonDisabled { amount := "5", status := none, loading := true } = true) ∧
    (burnUpdate { amount := "5", status := none, loading := true } BurnMsg.Burn).2.2
      = ["5"] := by
  have h := burn_resubmit_guard_is_ui_only
    { amount := "5", status := none, loading := true } rfl
  exact ⟨h.1, h.2 (F64Val.finite ⟨5, 1⟩) (by decide) (by decide)⟩

/-- Claim C2, counterexample: the texts "inf" and "NaN" are accepted by
`parse::<f64>` and submitted (an adapter burn call is dispatched), instead
of being rejected as not-a-number as the claim requires. -/
theorem validation_submits_nonfinite :
    burnUpdate { amount := "inf", status := none, loading := false } BurnMsg.Burn
      = ({ amount := "inf", status := none, loading := true }, true, ["inf"]) ∧
    burnUpdate { amount := "NaN", status := none, loading := false } BurnMsg.Burn
      = ({ amount := "NaN", status := none, loading := true }, true, ["NaN"]) := by
  constructor <;> decide

/-- Claim C2 (amended): validation fails as not-a-number ("Invalid amount",
no adapter call) exactly when the text is not accepted by Rust's f64
grammar — which does accept "inf", "infinity" and "nan" in any case,
optionally signed; fails as non-positive ("Amount must be greater than 0",
no adapter call) exactly when the parsed double is ≤ 0 (NaN compares
false); and otherwise dispatches the burn call with the raw text (the
parsed value is used only for the sign check).  In particular "inf" and
"NaN" are submitted, and "-inf" is rejected as non-positive. -/
theorem validation_characterization :
    (∀ st : BurnForm,
      (((burnUpdate st BurnMsg.Burn).1.status = some "Invalid amount" ∧
          (burnUpdate st BurnMsg.Burn).2.2 = []) ↔ parseF64 st.amount = none) ∧
      (((burnUpdate st BurnMsg.Burn).1.status = some "Amount must be greater than 0" ∧
          (burnUpdate st BurnMsg.Burn).2.2 = []) ↔
        (∃ v, parseF64 st.amount = some v ∧ f64LeZero v = true)) ∧
      ((burnUpdate st BurnMsg.Burn).2.2 = [st.amount] ↔
        (∃ v, parseF64 st.amount = some v ∧ f64LeZero v = false))) ∧
    parseF64 "inf" = some F64Val.inf ∧
    parseF64 "NaN" = some F64Val.nan ∧
    parseF64 "-inf" = some F64Val.neginf ∧
    f64LeZero F64Val.inf = false ∧
    f64LeZero F64Val.nan = false ∧
    f64LeZero F64Val.neginf = true := by
  refine ⟨?_, by decide, by decide, by decide, by decide, by decide, by decide⟩
  intro st
  rcases h : parseF64 st.amount with _ | v
  · simp [burnUpdate, h]
  · cases hle : f64LeZero v <;> simp [burnUpdate, h, hle]

/-- Claim C3 (code bug): with no wallet object present, the reflective get
of `window.solana` still succeeds (with `undefined`), so the task sends no
message at all — the `Msg::Error("Phantom wallet not found")` branch is
unreachable for every environment — and even a delivered `Msg::Error`
discards the message and emits no notification to the dependent
component.  Nothing ever transitions the session to a failure state. -/
theorem connect_failure_is_silent :
    connectTask { solanaPresent := false, connectIsFun := false,
                  connectOk := false, publicKey := none } = none ∧
    (∀ env : ConnectEnv,
      connectTask env = none ∨
      connectTask env = some (WalletMsg.Connected true env.publicKey)) ∧
    (∀ (s : WalletConnect) (e : String),
      walletUpdate s (WalletMsg.Error e) = ({ s with connected := false }, true, [], 0)) := by
  refine ⟨rfl, ?_, fun s e => rfl⟩
  intro env
  simp only [connectTask, reflectGetWindowSolana]
  split_ifs <;> simp

/-- Claim C4, counterexample: the state `connected = true` with no public
key is reachable — the provider can report a successful connect while its
`publicKey` property is absent or not a string, and the component stores
`Connected(true, None)`. -/
theorem connected_without_key_reachable :
    WReachable { connected := true, pub_key := none } ∧
    ({ connected := true, pub_key := none } : WalletConnect).connected = true ∧
    ({ connected := true, pub_key := none } : WalletConnect).pub_key = none := by
  refine ⟨?_, rfl, rfl⟩
  exact WReachable.task _
    { solanaPresent := true, connectIsFun := true, connectOk := true, publicKey := none }
    (WalletMsg.Connected true none) WReachable.init rfl

/-- Claim C4 (amended): one direction of the invariant holds in every
reachable state — a stored public key implies `connected = true` — but the
converse fails: the session can be connected with no public key. -/
theorem pub_key_implies_connected :
    ∀ s : WalletConnect, WReachable s → s.pub_key.isSome = true → s.connected = true := by
  intro s hr
  induction hr with
  | init => intro h; simp at h
  | connect s' _ ih => exact ih
  | task s' env m _ hm ih =>
    simp only [connectTask, reflectGetWindowSolana] at hm
    split_ifs at hm
    simp only [Option.some.injEq] at hm
    subst hm
    intro _
    rfl

/-- Witness for `pub_key_implies_connected` at a concrete reachable state
holding a key. -/
theorem pub_key_implies_connected_witness :
    (walletUpdate { connected := false, pub_key := none }
      (WalletMsg.Connected true (some "Ab12Cd34Ef56Gh78"))).1.connected = true := by
  exact pub_key_implies_connected _
    (WReachable.task _
      { solanaPresent := true, connectIsFun := true, connectOk := true,
        publicKey := some "Ab12Cd34Ef56Gh78" }
      (WalletMsg.Connected true (some "Ab12Cd34Ef56Gh78")) WReachable.init rfl)
    rfl

/-- Claim C5, counterexample: two back-to-back `Connect` intents — the
second issued while the first call is still in flight — each spawn an
adapter connect task (two concurrent connect calls), and such a task does
perform the external call when the provider is present. -/
theorem duplicate_connect_spawns_two_calls :
    walletRun { connected := false, pub_key := none }
      [WalletMsg.Connect, WalletMsg.Connect]
      = ({ connected := false, pub_key := none }, 2) ∧
    connectTask { solanaPresent := true, connectIsFun := true,
                  connectOk := true, publicKey := some "Ab12Cd34Ef56Gh78" }
      = some (WalletMsg.Connected true (some "Ab12Cd34Ef56Gh78")) := by
  exact ⟨rfl, rfl⟩

/-- Claim C5 (amended): a `Connect` intent never changes the session state
synchronously (and triggers no re-render and no notification), but the
component has no `Connecting` status and no re-entrancy guard: every
`Connect` intent spawns a fresh adapter connect task, so n consecutive
`Connect` intents spawn n concurrent calls. -/
theorem connect_always_spawns :
    ∀ (s : WalletConnect) (n : Nat),
      walletRun s (List.replicate n WalletMsg.Connect) = (s, n) := by
  intro s n
  induction n generalizing s with
  | zero => rfl
  | succ k ih =>
    simp only [List.replicate_succ, walletRun, walletUpdate, ih]
    rw [Nat.add_comm]


/-- Claim C6, counterexample: a provider-returned public key of fewer than
6 bytes ("abc") is an input on which the core crashes — the connected
state holding it is reachable, and rendering it panics (the byte slice
`&key[..6]` is out of range). -/
theorem short_key_crashes_view :
    WReachable { connected := true, pub_key := some "abc" } ∧
    walletView { connected := true, pub_key := some "abc" } = none := by
  refine ⟨?_, by decide⟩
  exact WReachable.task _
    { solanaPresent := true, connectIsFun := true, connectOk := true,
      publicKey := some "abc" }
    (WalletMsg.Connected true (some "abc")) WReachable.init rfl

/-- Claim C6 (amended): the update functions are total and fold adapter
errors into the state as status values — but rendering is not: the wallet
view panics exactly when the session is connected with an (ASCII) public
key of fewer than 6 bytes, instead of surfacing an error value. -/
theorem errors_are_values_but_view_panics :
    (∀ (st : BurnForm) (e : String),
      burnUpdate st (BurnMsg.Error e) = ({ st with status := some e, loading := false }, true, [])) ∧
    (∀ (st : BurnForm) (sig : String),
      burnUpdate st (BurnMsg.TransactionComplete sig)
        = ({ amount := "", status := some sig, loading := false }, true, [])) ∧
    (∀ (s : WalletConnect) (e : String),
      walletUpdate s (WalletMsg.Error e) = ({ s with connected := false }, true, [], 0)) ∧
    (∀ k : String, asciiStr k = true →
      (walletView { connected := true, pub_key := some k } = none ↔ k.length < 6)) := by
  refine ⟨fun st e => rfl, fun st sig => rfl, fun s e => rfl, ?_⟩
  intro k hk
  simp only [walletView, addressDisplay_ascii k hk, Bool.not_true, Bool.false_eq_true,
    if_false]
  by_cases h6 : 6 ≤ k.length
  · rw [if_pos h6]
    simp
    omega
  · rw [if_neg h6]
    simp
    omega

/-- Witness for `errors_are_values_but_view_panics`: a burn error becomes a
status value, and rendering the 2-byte key "ab" panics. -/
theorem errors_are_values_but_view_panics_witness :
    burnUpdate { amount := "7", status := none, loading := true } (BurnMsg.Error "boom")
      = ({ amount := "7", status := some "boom", loading := false }, true, []) ∧
    walletView { connected := true, pub_key := some "ab" } = none := by
  exact ⟨errors_are_values_but_view_panics.1
      { amount := "7", status := none, loading := true } "boom",
    (errors_are_values_but_view_panics.2.2.2 "ab" (by decide)).mpr (by decide)⟩

/-- Claim C7: an adapter burn call that completes successfully sends
`TransactionComplete`, moving the workflow to the success status with
`rawAmount` cleared; a failing call sends `Error`, moving it to the failure
status with `rawAmount` preserved. -/
theorem burn_completion_updates_state :
    ∀ (st : BurnForm) (env : BurnEnv) (amt : String),
      env.solanaPresent = true → env.burnTokensIsFun = true →
      ((env.burnOk = true →
        burnTask env amt
          = some (BurnMsg.TransactionComplete ("Successfully burned " ++ amt ++ " tokens")) ∧
        (burnUpdate st (BurnMsg.TransactionComplete ("Successfully burned " ++ amt ++ " tokens"))).1
          = { amount := "", status := some ("Successfully burned " ++ amt ++ " tokens"),
              loading := false }) ∧
      (env.burnOk = false →
        burnTask env amt = some (BurnMsg.Error "Failed to burn tokens") ∧
        (burnUpdate st (BurnMsg.Error "Failed to burn tokens")).1
          = { st with status := some "Failed to burn tokens", loading := false })) := by
  intro st env amt h1 h2
  refine ⟨fun h3 => ?_, fun h3 => ?_⟩ <;>
    exact ⟨by simp [burnTask, reflectGetWindowSolana, h1, h2, h3], rfl⟩

/-- Witness for `burn_completion_updates_state` at the submitted amount "5"
(raw amount cleared on success, preserved on failure). -/
theorem burn_completion_updates_state_witness :
    (burnTask { solanaPresent := true, burnTokensIsFun := true, burnOk := true } "5"
        = some (BurnMsg.TransactionComplete "Successfully burned 5 tokens") ∧
      (burnUpdate { amount := "5", status := none, loading := true }
        (BurnMsg.TransactionComplete "Successfully burned 5 tokens")).1
        = { amount := "", status := some "Successfully burned 5 tokens", loading := false }) ∧
    (burnTask { solanaPresent := true, burnTokensIsFun := true, burnOk := false } "5"
        = some (BurnMsg.Error "Failed to burn tokens") ∧
      (burnUpdate { amount := "5", status := none, loading := true }
        (BurnMsg.Error "Failed to burn tokens")).1
        = { amount := "5", status := some "Failed to burn tokens", loading := false }) := by
  have hT := burn_completion_updates_state
    { amount := "5", status := none, loading := true }
    { solanaPresent := true, burnTokensIsFun := true, burnOk := true } "5" rfl rfl
  have hF := burn_completion_updates_state
    { amount := "5", status := none, loading := true }
    { solanaPresent := true, burnTokensIsFun := true, burnOk := false } "5" rfl rfl
  exact ⟨hT.1 rfl, hF.2 rfl⟩

/-- Claim C8: a `Burn` submission whose amount fails validation moves the
workflow directly to the failure status carrying the validator's error
kind, with no adapter burn call made and `loading` still false. -/
theorem invalid_submit_fails_without_call :
    ∀ st : BurnForm, st.loading = false →
      (parseF64 st.amount = none →
        burnUpdate st BurnMsg.Burn = ({ st with status := some "Invalid amount" }, true, []) ∧
        (burnUpdate st BurnMsg.Burn).1.loading = false) ∧
      (∀ v, parseF64 st.amount = some v → f64LeZero v = true →
        burnUpdate st BurnMsg.Burn
          = ({ st with status := some "Amount must be greater than 0" }, true, []) ∧
        (burnUpdate st BurnMsg.Burn).1.loading = false) := by
  intro st h
  constructor
  · intro hp
    constructor
    · simp [burnUpdate, hp]
    · simp [burnUpdate, hp, h]
  · intro v hp hle
    constructor
    · simp [burnUpdate, hp, hle]
    · simp [burnUpdate, hp, hle, h]

/-- Witness for `invalid_submit_fails_without_call`: scenario C — from
idle, `UpdateAmount("-3")` then `Burn` ends failed (non-positive) with no
adapter call. -/
theorem invalid_submit_fails_without_call_witness :
    burnUpdate ((burnUpdate { amount := "", status := none, loading := false }
        (BurnMsg.UpdateAmount "-3")).1) BurnMsg.Burn
      = ({ amount := "-3", status := some "Amount must be greater than 0",
           loading := false }, true, []) := by
  exact ((invalid_submit_fails_without_call
      { amount := "-3", status := none, loading := false } rfl).2
    (F64Val.finite ⟨-3, 1⟩) (by decide) (by decide)).1

/-- Claim C9, counterexample: the truncation of the claim's own example key
"Ab12Cd34Ef56Gh78" is "Ab12Cd...56Gh78" (its last 6 characters are
"56Gh78"), not the claimed "Ab12Cd...Gh78"; and on the 12-character string
"aααααααααααα" (byte length 23) the byte-based slice `&s[0..6]` falls
inside a character and panics instead of returning a truncation. -/
theorem truncation_examples_refuted :
    format_transaction_signature "Ab12Cd34Ef56Gh78" = some "Ab12Cd...56Gh78" ∧
    ("Ab12Cd...56Gh78" == "Ab12Cd...Gh78") = false ∧
    format_transaction_signature "aααααααααααα" = none ∧
    String.length "aααααααααααα" = 12 := by
  refine ⟨by decide, by decide, by decide, by decide⟩

/-- Claim C9 (amended): for every string of one-byte (ASCII) characters of
length ≥ 12 the truncation is pure and returns the first 6 characters,
"...", then the last 6 characters; the example key "Ab12Cd34Ef56Gh78" is
displayed as "Ab12Cd...56Gh78".  (Strings with multi-byte characters are
sliced by bytes and may panic.) -/
theorem truncation_first6_last6 :
    ∀ s : String, asciiStr s = true → 12 ≤ s.length →
      format_transaction_signature s
        = some (String.mk (s.data.take 6 ++ "...".data ++ s.data.drop (s.length - 6))) := by
  intro s h h12
  rw [format_transaction_signature_ascii s h, if_pos (by omega)]

/-- Witness for `truncation_first6_last6` at the example key. -/
theorem truncation_first6_last6_witness :
    format_transaction_signature "Ab12Cd34Ef56Gh78"
      = some (String.mk ("Ab12Cd34Ef56Gh78".data.take 6 ++ "...".data ++
          "Ab12Cd34Ef56Gh78".data.drop (String.length "Ab12Cd34Ef56Gh78" - 6))) := by
  exact truncation_first6_last6 "Ab12Cd34Ef56Gh78" (by decide) (by decide)

/-- Claim C10: on ASCII inputs `format_transaction_signature` panics
exactly when the input has fewer than 6 characters; for 6 or more it
returns first-6 ++ "..." ++ last-6 (the two segments overlapping when the
length is below 12), not an out-of-bounds failure for all strings shorter
than 12. -/
theorem truncation_panic_boundary :
    ∀ s : String, asciiStr s = true →
      ((format_transaction_signature s = none ↔ s.length < 6) ∧
       (6 ≤ s.length →
         format_transaction_signature s
           = some (String.mk (s.data.take 6 ++ "...".data ++ s.data.drop (s.length - 6))))) := by
  intro s h
  rw [format_transaction_signature_ascii s h]
  constructor
  · by_cases h6 : 6 ≤ s.length
    · rw [if_pos h6]
      simp
      omega
    · rw [if_neg h6]
      simp
      omega
  · intro h6
    rw [if_pos h6]

/-- Witness for `truncation_panic_boundary`: the 5-character "abcde"
panics, while the 8-character "abcdefgh" is formatted with overlapping
segments. -/
theorem truncation_panic_boundary_witness :
    format_transaction_signature "abcde" = none ∧
    format_transaction_signature "abcdefgh" = some "abcdef...cdefgh" := by
  constructor
  · exact (truncation_panic_boundary "abcde" (by decide)).1.mpr (by decide)
  · have h := (truncation_panic_boundary "abcdefgh" (by decide)).2 (by decide)
    exact h.trans (by decide)
